import Mathlib

/-!
Shallow embedding of the metrics-agent anomaly-detection core
(`src/models/metric.py`, `src/models/anomaly.py`, `src/detectors/*.py`,
`src/collectors/prometheus_collector.py`).

Modelling conventions:
* Python floats are modelled as exact rationals (`ℚ`); the claims under
  study are about exact comparisons and branch structure, not rounding.
* `datetime` timestamps are modelled as natural numbers (minutes); the
  detectors only copy timestamps around and compare them for equality.
* `numpy.std` / `math.sqrt` is the one non-rational primitive; it is
  abstracted as an explicit function parameter `sqrtQ : ℚ → ℚ` so every
  definition stays executable.  Theorems that depend on it either take it
  as a parameter or assume only what the code guarantees (nonnegativity).
* Log statements, human-readable `description` strings and the rounded
  diagnostic `metadata` entries of the Python code are not modelled; no
  claim inspects them.
-/

namespace MetricsAgent

/-- The `MetricType` enum of `src/models/metric.py` (informational only). -/
inductive MetricType where
  | counter | gauge | histogram | summary
deriving DecidableEq

/-- One timestamped sample of a metric (`MetricValue` in `metric.py`). -/
structure MetricValue where
  timestamp : Nat
  value : ℚ
  labels : List (String × String) := []
deriving DecidableEq

/-- A metric with its ordered history (`Metric` in `metric.py`). -/
structure Metric where
  name : String
  metric_type : MetricType := MetricType.gauge
  values : List MetricValue := []
deriving DecidableEq

/-- The `AnomalyType` enum of `src/models/anomaly.py`. -/
inductive AnomalyType where
  | spike | drop | statistical_outlier | threshold_breach | pattern_anomaly
deriving DecidableEq

/-- The `Severity` enum of `src/models/anomaly.py`. -/
inductive Severity where
  | low | medium | high | critical
deriving DecidableEq

/-- The fields of the `Anomaly` dataclass that the claims touch.
`labels` and `metadata` default to the empty association list exactly as
the Python dataclass fields default to `{}`. -/
structure Anomaly where
  metric_name : String
  anomaly_type : AnomalyType
  severity : Severity
  timestamp : Nat
  value : ℚ
  detector_name : String
  confidence : ℚ := 0
  expected_value : Option ℚ := none
  metadata : List (String × String) := []
  labels : List (String × String) := []
deriving DecidableEq

/-- Model of `Anomaly.__post_init__`: constructing an `Anomaly` raises `ValueError`
unless `0 <= confidence <= 1`.  The raise is modelled as `Except.error`. -/
def mkAnomaly (a : Anomaly) : Except String Anomaly :=
  if 0 ≤ a.confidence ∧ a.confidence ≤ 1 then Except.ok a
  else Except.error "Confidence must be between 0 and 1"

/-- Default sample used for total indexing (`getD`). -/
def dMV : MetricValue := { timestamp := 0, value := 0 }

/-- Timestamp of the `i`-th sample of `m` (`metric.values[i].timestamp`). -/
def tsAt (m : Metric) (i : Nat) : Nat := (m.values.getD i dMV).timestamp

/-! ### Shared numeric helpers (numpy semantics over `ℚ`) -/

/-- Embeds `np.mean` (population mean); `0` on the empty list, which numpy never
receives on the paths modelled here. -/
def meanQ (l : List ℚ) : ℚ := l.sum / l.length

/-- Population variance, so that `np.std l = sqrt (popVariance l)`. -/
def popVariance (l : List ℚ) : ℚ :=
  (l.map (fun x => (x - meanQ l) ^ 2)).sum / l.length

/-- Python slice `l[a:b]`. -/
def sliceQ (l : List ℚ) (a b : Nat) : List ℚ := (l.drop a).take (b - a)

/-! ### SpikeDetector (`src/detectors/spike_detector.py`) -/

/-- The percent-change computation of `SpikeDetector.detect` for one
consecutive pair: `none` models the `continue` for a `0 → 0` pair. -/
def percentChange (previous_value current_value : ℚ) : Option ℚ :=
  if previous_value = 0 then
    if current_value ≠ 0 then some 100 else none
  else
    some ((current_value - previous_value) / previous_value * 100)

/-- Embeds `SpikeDetector._calculate_severity`. -/
def SpikeDetector.calculate_severity (change_percent : ℚ) : Severity :=
  if 200 ≤ change_percent then Severity.critical
  else if 100 ≤ change_percent then Severity.high
  else if 75 ≤ change_percent then Severity.medium
  else Severity.low

/-- Body of the `for i in range(1, len(values))` loop of
`SpikeDetector.detect` for the pair `(values[i-1], values[i])`. -/
def SpikeDetector.pair (sensitivity min_change_percent : ℚ) (name : String)
    (prev cur : MetricValue) : Option Anomaly :=
  match percentChange prev.value cur.value with
  | none => none
  | some pc =>
    if min_change_percent ≤ |pc| then
      some { metric_name := name
             anomaly_type := if 0 < pc then AnomalyType.spike else AnomalyType.drop
             severity := SpikeDetector.calculate_severity |pc|
             timestamp := cur.timestamp
             value := cur.value
             detector_name := "SpikeDetector"
             confidence := min (|pc| / 100) 1 * sensitivity
             expected_value := some prev.value }
    else none

/-- Embeds `SpikeDetector.detect`: enabled check, `validate_metric(min_points=2)`,
then the consecutive-pair loop. -/
def SpikeDetector.detect (sensitivity min_change_percent : ℚ) (enabled : Bool)
    (m : Metric) : List Anomaly :=
  if enabled = false then []
  else if m.values.length < 2 then []
  else (m.values.zip m.values.tail).filterMap
    (fun p => SpikeDetector.pair sensitivity min_change_percent m.name p.1 p.2)

/-! ### StatisticalDetector (`src/detectors/statistical_detector.py`) -/

/-- Insert into a sorted list (ascending). -/
def insertQ (x : ℚ) : List ℚ → List ℚ
  | [] => [x]
  | y :: ys => if x ≤ y then x :: y :: ys else y :: insertQ x ys

/-- Ascending sort, as `np.percentile` sorts its input. -/
def sortQ : List ℚ → List ℚ
  | [] => []
  | x :: xs => insertQ x (sortQ xs)

/-- Embeds `np.percentile(values, q)` with the default linear interpolation:
position `(n-1)·q/100` into the sorted data, interpolating between the two
neighbouring order statistics.  `np.median = percentileQ _ 50`. -/
def percentileQ (vs : List ℚ) (q : ℚ) : ℚ :=
  let s := sortQ vs
  let n := s.length
  if n = 0 then 0
  else
    let pos : ℚ := q * (n - 1) / 100
    let i : Nat := (⌊pos⌋).toNat
    let frac : ℚ := pos - (i : ℚ)
    s.getD i 0 + frac * (s.getD (min (i + 1) (n - 1)) 0 - s.getD i 0)

/-- Embeds `StatisticalDetector._calculate_zscore_severity`. -/
def StatisticalDetector.calculate_zscore_severity (z_score : ℚ) : Severity :=
  if 5 ≤ z_score then Severity.critical
  else if 4 ≤ z_score then Severity.high
  else if 7/2 ≤ z_score then Severity.medium
  else Severity.low

/-- Embeds `StatisticalDetector._calculate_iqr_severity`. -/
def StatisticalDetector.calculate_iqr_severity (normalized_distance : ℚ) : Severity :=
  if 3 ≤ normalized_distance then Severity.critical
  else if 2 ≤ normalized_distance then Severity.high
  else if 1 ≤ normalized_distance then Severity.medium
  else Severity.low

/-- Embeds `StatisticalDetector._detect_zscore_anomalies`; `sqrtQ` stands for the
square root inside `np.std`, so `std := sqrtQ (popVariance values)`. -/
def StatisticalDetector.zscoreAnomalies (sqrtQ : ℚ → ℚ) (z_score_threshold : ℚ)
    (m : Metric) : List Anomaly :=
  let values := m.values.map (fun v => v.value)
  let mean := meanQ values
  let std := sqrtQ (popVariance values)
  if std = 0 then []
  else
    m.values.filterMap (fun v =>
      let z := |v.value - mean| / std
      if z_score_threshold < z then
        some { metric_name := m.name
               anomaly_type := AnomalyType.statistical_outlier
               severity := StatisticalDetector.calculate_zscore_severity z
               timestamp := v.timestamp
               value := v.value
               detector_name := "StatisticalDetector"
               confidence := min (z / 5) 1
               expected_value := some mean }
      else none)

/-- Embeds `StatisticalDetector._detect_iqr_anomalies`. -/
def StatisticalDetector.iqrAnomalies (iqr_multiplier : ℚ) (m : Metric) :
    List Anomaly :=
  let values := m.values.map (fun v => v.value)
  let q1 := percentileQ values 25
  let q3 := percentileQ values 75
  let iqr := q3 - q1
  if iqr = 0 then []
  else
    let lower_bound := q1 - iqr_multiplier * iqr
    let upper_bound := q3 + iqr_multiplier * iqr
    m.values.filterMap (fun v =>
      if v.value < lower_bound ∨ upper_bound < v.value then
        let distance :=
          if v.value < lower_bound then lower_bound - v.value
          else v.value - upper_bound
        let normalized_distance := if 0 < iqr then distance / iqr else 0
        some { metric_name := m.name
               anomaly_type := AnomalyType.statistical_outlier
               severity := StatisticalDetector.calculate_iqr_severity normalized_distance
               timestamp := v.timestamp
               value := v.value
               detector_name := "StatisticalDetector"
               confidence := min (normalized_distance / 2) 1
               expected_value := some (percentileQ values 50) }
      else none)

/-- One comparison step of Python `max(..., key=lambda a: a.confidence)`:
the challenger replaces the current best only when strictly greater. -/
def pickConf (b c : Anomaly) : Anomaly :=
  if b.confidence < c.confidence then c else b

/-- Python `max(anoms, key=lambda a: a.confidence)`: the first element of
maximal confidence. -/
def pyMaxConf : List Anomaly → Option Anomaly
  | [] => none
  | a :: rest => some (rest.foldl pickConf a)

/-- Timestamps in order of first occurrence — the key order of the
insertion-ordered Python dict built by `_deduplicate_anomalies`. -/
def firstKeys : List Nat → List Nat
  | [] => []
  | t :: ts => t :: firstKeys (ts.filter (fun u => u ≠ t))
termination_by l => l.length
decreasing_by
  exact Nat.lt_succ_of_le (List.length_filter_le _ _)

/-- Embeds `StatisticalDetector._deduplicate_anomalies`: group the candidates by
timestamp (dict in insertion order, each group keeping list order) and keep
the per-group `max` by confidence. -/
def StatisticalDetector.deduplicate_anomalies (anomalies : List Anomaly) :
    List Anomaly :=
  (firstKeys (anomalies.map (fun a => a.timestamp))).filterMap
    (fun t => pyMaxConf (anomalies.filter (fun a => a.timestamp = t)))

/-- Embeds `StatisticalDetector.detect`: enabled check, `validate_metric(10)`,
z-score test ++ IQR test, then deduplication. -/
def StatisticalDetector.detect (sqrtQ : ℚ → ℚ) (z_score_threshold iqr_multiplier : ℚ)
    (enabled : Bool) (m : Metric) : List Anomaly :=
  if enabled = false then []
  else if m.values.length < 10 then []
  else
    StatisticalDetector.deduplicate_anomalies
      (StatisticalDetector.zscoreAnomalies sqrtQ z_score_threshold m ++
       StatisticalDetector.iqrAnomalies iqr_multiplier m)

/-! ### ThresholdDetector (`src/detectors/threshold_detector.py`) -/

/-- The bound set configured for one metric (absent key = absent bound). -/
structure Bounds where
  critical : Option ℚ := none
  warning : Option ℚ := none
  max : Option ℚ := none
  min : Option ℚ := none
  max_rate : Option ℚ := none
  min_rate : Option ℚ := none
deriving DecidableEq

/-- Which bound fired. -/
inductive ThresholdKind where
  | criticalK | warningK | maxK | minK | maxRateK | minRateK
deriving DecidableEq

/-- Result of `_check_thresholds`: kind, severity and triggering bound. -/
structure ThresholdHit where
  kind : ThresholdKind
  severity : Severity
  bound : ℚ
deriving DecidableEq

/-- Embeds `'critical' in thresholds and value >= thresholds['critical']` (also
used for `warning`). -/
def geHit (bound : Option ℚ) (value : ℚ) : Option ℚ :=
  match bound with
  | some t => if t ≤ value then some t else none
  | none => none

/-- Embeds `'max' in thresholds and value > thresholds['max']` (also `max_rate`):
note the strict `>` in the source. -/
def gtHit (bound : Option ℚ) (value : ℚ) : Option ℚ :=
  match bound with
  | some t => if t < value then some t else none
  | none => none

/-- Embeds `'min' in thresholds and value < thresholds['min']` (also `min_rate`). -/
def ltHit (bound : Option ℚ) (value : ℚ) : Option ℚ :=
  match bound with
  | some t => if value < t then some t else none
  | none => none

/-- Embeds `ThresholdDetector._check_thresholds`: sequential early-return checks in
the source order critical → warning → max → min → max_rate → min_rate. -/
def ThresholdDetector.check_thresholds (b : Bounds) (value : ℚ) :
    Option ThresholdHit :=
  match geHit b.critical value with
  | some t => some ⟨ThresholdKind.criticalK, Severity.critical, t⟩
  | none =>
  match geHit b.warning value with
  | some t => some ⟨ThresholdKind.warningK, Severity.high, t⟩
  | none =>
  match gtHit b.max value with
  | some t => some ⟨ThresholdKind.maxK, Severity.high, t⟩
  | none =>
  match ltHit b.min value with
  | some t => some ⟨ThresholdKind.minK, Severity.medium, t⟩
  | none =>
  match gtHit b.max_rate value with
  | some t => some ⟨ThresholdKind.maxRateK, Severity.high, t⟩
  | none =>
  match ltHit b.min_rate value with
  | some t => some ⟨ThresholdKind.minRateK, Severity.medium, t⟩
  | none => none

/-- Anchored matcher for the regex obtained by `pattern.replace('*', '.*')`:
`'*'` matches any (possibly empty) character sequence, every other pattern
character is literal.  `globFull p t = true` iff that regex matches all of
`t`. -/
def globFull : List Char → List Char → Bool
  | [], t => t.isEmpty
  | p :: ps, t =>
    if p = '*' then
      globFull ps t ||
        (match t with
         | [] => false
         | _ :: ts => globFull (p :: ps) ts)
    else
      match t with
      | [] => false
      | c :: ts => p = c && globFull ps ts
termination_by p t => p.length + t.length
decreasing_by all_goals simp_arith

/-- Embeds `re.match(pattern_regex, metric_name)`: the regex must match at the
start of the name but may stop before its end, i.e. it matches some
initial segment of the name. -/
def reMatch (p t : List Char) : Bool := t.inits.any (fun pre => globFull p pre)

/-- Embeds `ThresholdDetector._get_metric_thresholds`: exact dict lookup first,
then the first configured pattern that contains `'*'` and whose expansion
`re.match`es the metric name.  The configuration dict is modelled as an
insertion-ordered association list. -/
def ThresholdDetector.get_metric_thresholds (thresholds : List (String × Bounds))
    (metric_name : String) : Option Bounds :=
  match thresholds.find? (fun kv => kv.1 = metric_name) with
  | some kv => some kv.2
  | none =>
    match thresholds.find?
        (fun kv => kv.1.toList.contains '*' && reMatch kv.1.toList metric_name.toList) with
    | some kv => some kv.2
    | none => none

/-- Embeds `ThresholdDetector.detect`: enabled check, `validate_metric(1)`, bound
resolution, then one `_check_thresholds` pass per sample (each sample
yields at most one anomaly, built by `_create_threshold_anomaly` with
confidence 1 and `expected_value` = the triggering bound). -/
def ThresholdDetector.detect (thresholds : List (String × Bounds)) (enabled : Bool)
    (m : Metric) : List Anomaly :=
  if enabled = false then []
  else if m.values.length < 1 then []
  else
    match ThresholdDetector.get_metric_thresholds thresholds m.name with
    | none => []
    | some b =>
      m.values.filterMap (fun mv =>
        (ThresholdDetector.check_thresholds b mv.value).map (fun h =>
          { metric_name := m.name
            anomaly_type := AnomalyType.threshold_breach
            severity := h.severity
            timestamp := mv.timestamp
            value := mv.value
            detector_name := "ThresholdDetector"
            confidence := 1
            expected_value := some h.bound }))

/-! ### PatternDetector (`src/detectors/pattern_detector.py`) -/

/-- Embeds `np.gradient` on a 1-d array (`[]` below the 2-point minimum numpy
requires; that case is unreachable behind the detector's length guard):
one-sided differences at the ends, central differences inside. -/
def npGradient (vs : List ℚ) : List ℚ :=
  if vs.length < 2 then []
  else
    (List.range vs.length).map (fun i =>
      if i = 0 then vs.getD 1 0 - vs.getD 0 0
      else if i = vs.length - 1 then vs.getD i 0 - vs.getD (i - 1) 0
      else (vs.getD (i + 1) 0 - vs.getD (i - 1) 0) / 2)

/-- Embeds `np.convolve(g, np.ones(w)/w, mode='valid')` for a constant kernel:
the length-`w` windowed means of `g` (empty in the degenerate cases the
detector never reaches). -/
def convValid (g : List ℚ) (w : Nat) : List ℚ :=
  if w = 0 ∨ g.length < w then []
  else (List.range (g.length - w + 1)).map (fun j => (sliceQ g j (j + w)).sum / (w : ℚ))

/-- Embeds `np.sign`. -/
def signQ (x : ℚ) : ℚ := if 0 < x then 1 else if x < 0 then -1 else 0

/-- Embeds `np.diff`. -/
def diffQ (l : List ℚ) : List ℚ := (l.zip l.tail).map (fun p => p.2 - p.1)

/-- Embeds `PatternDetector._detect_trend_changes`.  The spike/drop branches build
the same anomaly record up to the unmodelled description/metadata, so they
are merged into one disjunctive condition. -/
def PatternDetector.trendAnomalies (sqrtQ : ℚ → ℚ) (window_size : Nat)
    (m : Metric) : List Anomaly :=
  let values := m.values.map (fun v => v.value)
  let gradient := npGradient values
  let window := window_size / 2
  let smoothed_gradient := convValid gradient window
  let sign_changes := diffQ (smoothed_gradient.map signQ)
  (List.range sign_changes.length).filterMap (fun idx =>
    if 0 < |sign_changes.getD idx 0| then
      let real_idx := idx + window / 2 + 1
      if values.length ≤ real_idx then none
      else
        let before_trend := meanQ (sliceQ gradient (real_idx - 5) real_idx)
        let after_trend := meanQ (sliceQ gradient real_idx (min gradient.length (real_idx + 5)))
        if (0 < before_trend ∧ after_trend < 0) ∨ (before_trend < 0 ∧ 0 < after_trend) then
          some { metric_name := m.name
                 anomaly_type := AnomalyType.pattern_anomaly
                 severity := Severity.medium
                 timestamp := tsAt m real_idx
                 value := values.getD real_idx 0
                 detector_name := "PatternDetector"
                 confidence := min (|after_trend - before_trend| / sqrtQ (popVariance gradient)) 1 }
        else none
    else none)

/-- Embeds `PatternDetector._calculate_moving_average` at index `i`: expanding
window for `i < window`, else the mean of the `window` preceding points
(excluding index `i` itself). -/
def moving_average (values : List ℚ) (window i : Nat) : ℚ :=
  if i < window then meanQ (values.take (i + 1))
  else meanQ (sliceQ values (i - window) i)

/-- Variance counterpart of `_calculate_moving_std`:
`moving_std = sqrtQ ∘ moving_var`. -/
def moving_var (values : List ℚ) (window i : Nat) : ℚ :=
  if i < window then popVariance (values.take (i + 1))
  else popVariance (sliceQ values (i - window) i)

/-- Body of the per-index loop of
`PatternDetector._detect_moving_average_deviations` (the loop starts at
`window_size`, skips indices with zero moving std, flags deviations above
2.5 σ). -/
def PatternDetector.maDevAt (sqrtQ : ℚ → ℚ) (window_size : Nat) (m : Metric)
    (i : Nat) : Option Anomaly :=
  let values := m.values.map (fun v => v.value)
  if i < window_size then none
  else
    let value := values.getD i 0
    let expected := moving_average values window_size i
    let std := sqrtQ (moving_var values window_size i)
    if std = 0 then none
    else
      let deviation := |value - expected| / std
      if 5/2 < deviation then
        some { metric_name := m.name
               anomaly_type := AnomalyType.pattern_anomaly
               severity :=
                 if 4 < deviation then Severity.high
                 else if 3 < deviation then Severity.medium
                 else Severity.low
               timestamp := tsAt m i
               value := value
               detector_name := "PatternDetector"
               confidence := min (deviation / 5) 1
               expected_value := some expected }
      else none

/-- Embeds `PatternDetector._detect_moving_average_deviations`. -/
def PatternDetector.maDeviationAnomalies (sqrtQ : ℚ → ℚ) (window_size : Nat)
    (m : Metric) : List Anomaly :=
  (List.range m.values.length).filterMap (PatternDetector.maDevAt sqrtQ window_size m)

/-- Embeds `PatternDetector.detect`: enabled check, `validate_metric(2*window_size)`,
then trend-change and moving-average sub-detections concatenated. -/
def PatternDetector.detect (sqrtQ : ℚ → ℚ) (window_size : Nat) (enabled : Bool)
    (m : Metric) : List Anomaly :=
  if enabled = false then []
  else if m.values.length < window_size * 2 then []
  else
    PatternDetector.trendAnomalies sqrtQ window_size m ++
    PatternDetector.maDeviationAnomalies sqrtQ window_size m

/-! ### LLM enrichment and orchestrator fallback
(`src/detectors/llm_validator.py`, `src/collectors/prometheus_collector.py`) -/

/-- The fields of the per-anomaly LLM verdict that the pipeline reads. -/
structure LLMInfo where
  llm_validation : Option String := none
  llm_analysis : Option String := none
deriving DecidableEq

/-- Embeds `LLMValidator._should_keep_anomaly`: keep unless the lowercased
analysis contains an explicitly negative indicator. -/
def LLMValidator.should_keep_anomaly (info : LLMInfo) : Bool :=
  match info.llm_analysis with
  | none => true
  | some s =>
    let a := s.toLower.toList
    !("non".toList <:+: a) && !("false positive".toList <:+: a) &&
    !("probably not".toList <:+: a) && !("unlikely".toList <:+: a)

/-- Embeds `LLMValidator.validate_anomalies`: per-anomaly LLM call; a per-anomaly
exception (`Except.error`) appends the un-enriched anomaly when
`keep_all`.  The `client` argument models `self.llm_client.validate_anomaly`. -/
def LLMValidator.validate_anomalies (client : Anomaly → Except String LLMInfo)
    (enabled keep_all : Bool) (anomalies : List Anomaly) :
    List (Anomaly × Option LLMInfo) :=
  if enabled = false then []
  else
    anomalies.filterMap (fun a =>
      match client a with
      | Except.ok info =>
        if keep_all || LLMValidator.should_keep_anomaly info then some (a, some info)
        else none
      | Except.error _ => if keep_all then some (a, none) else none)

/-- Embeds `PrometheusCollector._enrich_with_llm`: validate with `keep_all=True`,
convert the enriched dicts back to `Anomaly` (identity on the modelled
fields), folding a present `llm_analysis` into `metadata`. -/
def enrich_with_llm (client : Anomaly → Except String LLMInfo)
    (anomalies : List Anomaly) : List Anomaly :=
  (LLMValidator.validate_anomalies client true true anomalies).map (fun p =>
    match p.2 with
    | some info =>
      match info.llm_analysis with
      | some s => { p.1 with metadata := p.1.metadata ++ [("llm_analysis", s)] }
      | none => p.1
    | none => p.1)

/-- The enrichment step of `PrometheusCollector.collect_and_analyze`
(lines 176–188): only runs when the validator is enabled and the batch is
nonempty; the surrounding `try/except` keeps the un-enriched batch when
`_enrich_with_llm` raises. -/
def apply_enrichment (enricher_enabled : Bool)
    (enrich : List Anomaly → Except String (List Anomaly))
    (all_anomalies : List Anomaly) : List Anomaly :=
  if enricher_enabled ∧ all_anomalies ≠ [] then
    match enrich all_anomalies with
    | Except.ok enriched => enriched
    | Except.error _ => all_anomalies
  else all_anomalies

/-! ### Concrete inputs used by counterexamples and witnesses -/

/-- The Series `[100,100,100,100,300,100,100]` at 1-minute spacing. -/
def spikeScenarioMetric : Metric :=
  { name := "cpu_usage"
    values := [ { timestamp := 0, value := 100 }, { timestamp := 1, value := 100 },
                { timestamp := 2, value := 100 }, { timestamp := 3, value := 100 },
                { timestamp := 4, value := 300 }, { timestamp := 5, value := 100 },
                { timestamp := 6, value := 100 } ] }

/-- A two-sample metric whose samples carry a nonempty label set. -/
def labeledMetric : Metric :=
  { name := "http_requests"
    values := [ { timestamp := 0, value := 100, labels := [("instance", "a")] },
                { timestamp := 1, value := 300, labels := [("instance", "a")] } ] }

/-- A stand-in square root that is exact on every input it actually
receives in the witnesses below (`0 ↦ 0`, `1 ↦ 1`). -/
def sqrtQ01 : ℚ → ℚ := fun q => if q = 1 then 1 else 0

/-- The constant-one stand-in square root (any function is admissible for
the `sqrtQ`-parametric theorems). -/
def sqrtConstOne : ℚ → ℚ := fun _ => 1

/-- Ten samples `[0,0,0,2,2,2,2,2,2,6]` flagged at timestamp 9 by both
statistical sub-tests (with `sqrtConstOne` and `z_score_threshold = 4`). -/
def statMetricW : Metric :=
  { name := "s"
    values := [ { timestamp := 0, value := 0 }, { timestamp := 1, value := 0 },
                { timestamp := 2, value := 0 }, { timestamp := 3, value := 2 },
                { timestamp := 4, value := 2 }, { timestamp := 5, value := 2 },
                { timestamp := 6, value := 2 }, { timestamp := 7, value := 2 },
                { timestamp := 8, value := 2 }, { timestamp := 9, value := 6 } ] }

/-- The z-score candidate of `statMetricW` (z = 4.2, confidence 21/25). -/
def zAnomW : Anomaly :=
  { metric_name := "s", anomaly_type := AnomalyType.statistical_outlier,
    severity := Severity.high, timestamp := 9, value := 6,
    detector_name := "StatisticalDetector", confidence := 21/25,
    expected_value := some (9/5) }

/-- The IQR candidate of `statMetricW` (nd = 7/6, confidence 7/12). -/
def qAnomW : Anomaly :=
  { metric_name := "s", anomaly_type := AnomalyType.statistical_outlier,
    severity := Severity.medium, timestamp := 9, value := 6,
    detector_name := "StatisticalDetector", confidence := 7/12,
    expected_value := some 2 }

/-- Series `[0,2,0,2,5]`: at index 4 the trailing window `[0,2]` has mean 1 and
std 1, so the deviation is exactly 4 σ. -/
def maScenarioMetric : Metric :=
  { name := "p"
    values := [ { timestamp := 0, value := 0 }, { timestamp := 1, value := 2 },
                { timestamp := 2, value := 0 }, { timestamp := 3, value := 2 },
                { timestamp := 4, value := 5 } ] }

/-- The anomaly the code emits on `maScenarioMetric` (severity medium). -/
def maCexAnomaly : Anomaly :=
  { metric_name := "p", anomaly_type := AnomalyType.pattern_anomaly,
    severity := Severity.medium, timestamp := 4, value := 5,
    detector_name := "PatternDetector", confidence := 4/5,
    expected_value := some 1 }

/-- Series `[0,2,0,2,6]`: deviation 5 σ at index 4. -/
def maWitnessMetric : Metric :=
  { name := "p"
    values := [ { timestamp := 0, value := 0 }, { timestamp := 1, value := 2 },
                { timestamp := 2, value := 0 }, { timestamp := 3, value := 2 },
                { timestamp := 4, value := 6 } ] }

/-- The anomaly the code emits on `maWitnessMetric` (severity high). -/
def maWitnessAnomaly : Anomaly :=
  { metric_name := "p", anomaly_type := AnomalyType.pattern_anomaly,
    severity := Severity.high, timestamp := 4, value := 6,
    detector_name := "PatternDetector", confidence := 1,
    expected_value := some 1 }

/-- The pair `100 → 300` as a two-sample metric. -/
def spikeWitnessMetric : Metric :=
  { name := "m"
    values := [ { timestamp := 0, value := 100 }, { timestamp := 1, value := 300 } ] }

/-- The anomaly `SpikeDetector` emits on `spikeWitnessMetric` with
sensitivity 4/5 and `min_change_percent` 50. -/
def spikeWitnessAnomaly : Anomaly :=
  { metric_name := "m", anomaly_type := AnomalyType.spike,
    severity := Severity.critical, timestamp := 1, value := 300,
    detector_name := "SpikeDetector", confidence := 4/5,
    expected_value := some 100 }

/-- Bound set `{warning: 70, critical: 90}`. -/
def thrWitnessBounds : Bounds := { warning := some 70, critical := some 90 }

/-- A one-sample metric with value 95. -/
def thrWitnessMetric : Metric :=
  { name := "cpu_usage", values := [ { timestamp := 0, value := 95 } ] }

/-- The anomaly `ThresholdDetector` emits on `thrWitnessMetric`. -/
def thrWitnessAnomaly : Anomaly :=
  { metric_name := "cpu_usage", anomaly_type := AnomalyType.threshold_breach,
    severity := Severity.critical, timestamp := 0, value := 95,
    detector_name := "ThresholdDetector", confidence := 1,
    expected_value := some 90 }

/-! ### Helper lemmas -/

/-- Shape of a successful `SpikeDetector.pair`. -/
theorem spike_pair_shape {s c : ℚ} {n : String} {p q : MetricValue} {a : Anomaly}
    (h : SpikeDetector.pair s c n p q = some a) :
    ∃ pc, percentChange p.value q.value = some pc ∧ c ≤ |pc| ∧
      a = { metric_name := n
            anomaly_type := if 0 < pc then AnomalyType.spike else AnomalyType.drop
            severity := SpikeDetector.calculate_severity |pc|
            timestamp := q.timestamp
            value := q.value
            detector_name := "SpikeDetector"
            confidence := min (|pc| / 100) 1 * s
            expected_value := some p.value } := by
  unfold SpikeDetector.pair at h
  cases hpc : percentChange p.value q.value with
  | none => simp [hpc] at h
  | some pc =>
    simp only [hpc] at h
    by_cases hle : c ≤ |pc|
    · rw [if_pos hle] at h
      exact ⟨pc, rfl, hle, (Option.some.inj h).symm⟩
    · rw [if_neg hle] at h
      cases h

/-- Membership in `SpikeDetector.detect` comes from some consecutive pair. -/
theorem spike_detect_mem {s c : ℚ} {en : Bool} {m : Metric} {a : Anomaly}
    (h : a ∈ SpikeDetector.detect s c en m) :
    ∃ p ∈ m.values.zip m.values.tail, SpikeDetector.pair s c m.name p.1 p.2 = some a := by
  unfold SpikeDetector.detect at h
  split at h
  · cases h
  · split at h
    · cases h
    · exact List.mem_filterMap.mp h

/-- The running best of `pickConf` stays inside the candidate pool. -/
theorem foldl_pickConf_mem (rest : List Anomaly) (a : Anomaly) :
    rest.foldl pickConf a ∈ a :: rest := by
  induction rest generalizing a with
  | nil => simp
  | cons c cs ih =>
    simp only [List.foldl_cons]
    rcases List.mem_cons.mp (ih (pickConf a c)) with h1 | h1
    · rw [h1]
      unfold pickConf
      by_cases hac : a.confidence < c.confidence
      · simp [hac]
      · simp [hac]
    · exact List.mem_cons_of_mem _ (List.mem_cons_of_mem _ h1)

/-- The running best of `pickConf` dominates the start value and every
challenger. -/
theorem foldl_pickConf_le (rest : List Anomaly) (a : Anomaly) :
    a.confidence ≤ (rest.foldl pickConf a).confidence ∧
    ∀ c ∈ rest, c.confidence ≤ (rest.foldl pickConf a).confidence := by
  induction rest generalizing a with
  | nil => simp
  | cons c cs ih =>
    simp only [List.foldl_cons]
    obtain ⟨h1, h2⟩ := ih (pickConf a c)
    have ha : a.confidence ≤ (pickConf a c).confidence := by
      unfold pickConf
      by_cases hac : a.confidence < c.confidence
      · simpa [hac] using hac.le
      · simp [hac]
    have hc : c.confidence ≤ (pickConf a c).confidence := by
      unfold pickConf
      by_cases hac : a.confidence < c.confidence
      · simp [hac]
      · simpa [hac] using not_lt.mp hac
    refine ⟨ha.trans h1, ?_⟩
    intro d hd
    rcases List.mem_cons.mp hd with rfl | hd'
    · exact hc.trans h1
    · exact h2 d hd'

/-- When one candidate strictly dominates every other, the `pickConf` fold
returns exactly it (Python `max` tie-breaking is irrelevant here). -/
theorem foldl_pickConf_strict {w : Anomaly} :
    ∀ (rest : List Anomaly) (a : Anomaly),
      (∀ c ∈ rest, c = w ∨ c.confidence < w.confidence) →
      (a = w ∨ (a.confidence < w.confidence ∧ w ∈ rest)) →
      rest.foldl pickConf a = w := by
  intro rest
  induction rest with
  | nil =>
    intro a _ h2
    rcases h2 with rfl | ⟨_, hw⟩
    · rfl
    · cases hw
  | cons c cs ih =>
    intro a h1 h2
    simp only [List.foldl_cons]
    apply ih
    · intro d hd
      exact h1 d (List.mem_cons_of_mem _ hd)
    · rcases h2 with rfl | ⟨ha, hw⟩
      · rcases h1 c (List.mem_cons_self _ _) with rfl | hc
        · left
          simp [pickConf]
        · left
          simp [pickConf, not_lt.mpr hc.le]
      · rcases List.mem_cons.mp hw with rfl | hw'
        · left
          simp [pickConf, ha]
        · rcases h1 c (List.mem_cons_self _ _) with rfl | hc
          · left
            simp [pickConf, ha]
          · right
            refine ⟨?_, hw'⟩
            unfold pickConf
            by_cases hac : a.confidence < c.confidence
            · simpa [hac] using hc
            · simpa [hac] using ha

/-- A `pyMaxConf` result is a member of its input. -/
theorem pyMaxConf_mem {g : List Anomaly} {b : Anomaly} (h : pyMaxConf g = some b) :
    b ∈ g := by
  cases g with
  | nil => cases h
  | cons a rest =>
    have hb : rest.foldl pickConf a = b := Option.some.inj h
    exact hb ▸ foldl_pickConf_mem rest a

/-- A `pyMaxConf` result dominates every member of its input. -/
theorem pyMaxConf_le {g : List Anomaly} {b : Anomaly} (h : pyMaxConf g = some b) :
    ∀ c ∈ g, c.confidence ≤ b.confidence := by
  cases g with
  | nil => cases h
  | cons a rest =>
    have hb : rest.foldl pickConf a = b := Option.some.inj h
    intro c hc
    obtain ⟨h1, h2⟩ := foldl_pickConf_le rest a
    rcases List.mem_cons.mp hc with rfl | hc'
    · exact hb ▸ h1
    · exact hb ▸ h2 c hc'

/-- When one member strictly dominates all others, `pyMaxConf` picks it. -/
theorem pyMaxConf_strict {g : List Anomaly} {w : Anomaly} (hw : w ∈ g)
    (hs : ∀ c ∈ g, c ≠ w → c.confidence < w.confidence) :
    pyMaxConf g = some w := by
  cases g with
  | nil => cases hw
  | cons a rest =>
    have h1 : ∀ c ∈ rest, c = w ∨ c.confidence < w.confidence := by
      intro c hc
      by_cases hcw : c = w
      · exact Or.inl hcw
      · exact Or.inr (hs c (List.mem_cons_of_mem _ hc) hcw)
    have h2 : a = w ∨ (a.confidence < w.confidence ∧ w ∈ rest) := by
      by_cases haw : a = w
      · exact Or.inl haw
      · refine Or.inr ⟨hs a (List.mem_cons_self _ _) haw, ?_⟩
        rcases List.mem_cons.mp hw with rfl | hw'
        · exact absurd rfl haw
        · exact hw'
    exact congrArg some (foldl_pickConf_strict rest a h1 h2)

/-- The `firstKeys` transform preserves membership. -/
theorem firstKeys_mem : ∀ {l : List Nat} {t : Nat}, t ∈ firstKeys l ↔ t ∈ l := by
  intro l
  induction l using firstKeys.induct with
  | case1 => simp [firstKeys]
  | case2 u us ih =>
    intro t
    rw [firstKeys]
    constructor
    · intro h
      rcases List.mem_cons.mp h with rfl | h'
      · exact List.mem_cons_self _ _
      · have := ih.mp h'
        exact List.mem_cons_of_mem _ (List.mem_filter.mp this).1
    · intro h
      rcases List.mem_cons.mp h with rfl | h'
      · exact List.mem_cons_self _ _
      · by_cases htu : t = u
        · exact htu ▸ List.mem_cons_self _ _
        · exact List.mem_cons_of_mem _
            (ih.mpr (List.mem_filter.mpr ⟨h', by simpa using htu⟩))

/-- The `firstKeys` output has no duplicates. -/
theorem firstKeys_nodup : ∀ (l : List Nat), (firstKeys l).Nodup := by
  intro l
  induction l using firstKeys.induct with
  | case1 => simp [firstKeys]
  | case2 u us ih =>
    rw [firstKeys]
    refine List.nodup_cons.mpr ⟨?_, ih⟩
    intro hmem
    have := (List.mem_filter.mp (firstKeys_mem.mp hmem)).2
    simp at this

/-- Each key hit by the group content produces exactly itself in the
deduplicated key sequence. -/
theorem dedup_keys_aux (as : List Anomaly) :
    ∀ ks : List Nat, (∀ t ∈ ks, t ∈ as.map (fun a => a.timestamp)) →
      ((ks.filterMap
          (fun t => pyMaxConf (as.filter (fun a => a.timestamp = t)))).map
        (fun a => a.timestamp)) = ks := by
  intro ks
  induction ks with
  | nil => simp
  | cons t ts ih =>
    intro hks
    obtain ⟨a, ha, hat⟩ := List.mem_map.mp (hks t (List.mem_cons_self _ _))
    have hmemf : a ∈ as.filter (fun x => x.timestamp = t) :=
      List.mem_filter.mpr ⟨ha, by simp [hat]⟩
    obtain ⟨b, hb⟩ : ∃ b, pyMaxConf (as.filter (fun x => x.timestamp = t)) = some b := by
      cases hfil : as.filter (fun x => x.timestamp = t) with
      | nil => rw [hfil] at hmemf; cases hmemf
      | cons x xs => exact ⟨_, rfl⟩
    have hbts : b.timestamp = t := by
      have hbmem := pyMaxConf_mem hb
      simpa using (List.mem_filter.mp hbmem).2
    rw [List.filterMap_cons, hb]
    simp only [List.map_cons, hbts]
    rw [ih (fun u hu => hks u (List.mem_cons_of_mem _ hu))]

/-- The timestamps of the deduplicated output are exactly the distinct
input timestamps in first-occurrence order. -/
theorem dedup_map_ts (as : List Anomaly) :
    (StatisticalDetector.deduplicate_anomalies as).map (fun a => a.timestamp) =
      firstKeys (as.map (fun a => a.timestamp)) := by
  unfold StatisticalDetector.deduplicate_anomalies
  exact dedup_keys_aux as _ (fun t ht => firstKeys_mem.mp ht)

/-- Every deduplicated anomaly is one of the candidates. -/
theorem dedup_mem_sub {as : List Anomaly} {a : Anomaly}
    (h : a ∈ StatisticalDetector.deduplicate_anomalies as) : a ∈ as := by
  unfold StatisticalDetector.deduplicate_anomalies at h
  obtain ⟨t, _, hsome⟩ := List.mem_filterMap.mp h
  exact (List.mem_filter.mp (pyMaxConf_mem hsome)).1

/-- A deduplicated anomaly has maximal confidence among the candidates
sharing its timestamp. -/
theorem dedup_max {as : List Anomaly} {a b : Anomaly}
    (ha : a ∈ StatisticalDetector.deduplicate_anomalies as) (hb : b ∈ as)
    (hts : b.timestamp = a.timestamp) : b.confidence ≤ a.confidence := by
  unfold StatisticalDetector.deduplicate_anomalies at ha
  obtain ⟨t, _, hsome⟩ := List.mem_filterMap.mp ha
  have hat : a.timestamp = t := by
    simpa using (List.mem_filter.mp (pyMaxConf_mem hsome)).2
  exact pyMaxConf_le hsome b (List.mem_filter.mpr ⟨hb, by simp [hts, hat]⟩)

/-- Every flagged timestamp survives deduplication. -/
theorem dedup_exists {as : List Anomaly} {t : Nat}
    (h : t ∈ as.map (fun a => a.timestamp)) :
    ∃ a ∈ StatisticalDetector.deduplicate_anomalies as, a.timestamp = t := by
  have := dedup_map_ts as
  have ht : t ∈ (StatisticalDetector.deduplicate_anomalies as).map
      (fun a => a.timestamp) := by
    rw [this]
    exact firstKeys_mem.mpr h
  obtain ⟨a, ha, hat⟩ := List.mem_map.mp ht
  exact ⟨a, ha, hat⟩

/-- A strictly dominating candidate at a timestamp is the unique survivor
at that timestamp. -/
theorem dedup_strict {as : List Anomaly} {w : Anomaly} (hw : w ∈ as)
    (hs : ∀ c ∈ as, c.timestamp = w.timestamp → c ≠ w →
      c.confidence < w.confidence) :
    w ∈ StatisticalDetector.deduplicate_anomalies as ∧
    ∀ a ∈ StatisticalDetector.deduplicate_anomalies as,
      a.timestamp = w.timestamp → a = w := by
  have hw_fil : w ∈ as.filter (fun a => a.timestamp = w.timestamp) :=
    List.mem_filter.mpr ⟨hw, by simp⟩
  have hmax : pyMaxConf (as.filter (fun a => a.timestamp = w.timestamp)) = some w := by
    refine pyMaxConf_strict hw_fil ?_
    intro c hc hne
    have hcmem := List.mem_filter.mp hc
    exact hs c hcmem.1 (by simpa using hcmem.2) hne
  have htk : w.timestamp ∈ firstKeys (as.map (fun a => a.timestamp)) :=
    firstKeys_mem.mpr (List.mem_map.mpr ⟨w, hw, rfl⟩)
  have hwmem : w ∈ StatisticalDetector.deduplicate_anomalies as := by
    unfold StatisticalDetector.deduplicate_anomalies
    exact List.mem_filterMap.mpr ⟨w.timestamp, htk, hmax⟩
  refine ⟨hwmem, ?_⟩
  intro a ha hat
  have hnodup : ((StatisticalDetector.deduplicate_anomalies as).map
      (fun x => x.timestamp)).Nodup := by
    rw [dedup_map_ts]
    exact firstKeys_nodup _
  exact List.inj_on_of_nodup_map hnodup ha hwmem hat

/-- What a z-score anomaly looks like: its confidence is `min (z/5) 1` for
the (positive-std) z-score of some sample, and its labels stay empty. -/
theorem zscore_mem_elim {sq : ℚ → ℚ} {zt : ℚ} {m : Metric} {a : Anomaly}
    (h : a ∈ StatisticalDetector.zscoreAnomalies sq zt m) :
    ∃ v ∈ m.values, ∃ z : ℚ,
      sq (popVariance (m.values.map (fun x => x.value))) ≠ 0 ∧
      z = |v.value - meanQ (m.values.map (fun x => x.value))| /
          sq (popVariance (m.values.map (fun x => x.value))) ∧
      zt < z ∧ a.confidence = min (z / 5) 1 ∧ a.labels = [] ∧
      a.timestamp = v.timestamp := by
  simp only [StatisticalDetector.zscoreAnomalies] at h
  split at h
  · cases h
  · next hstd =>
    rw [List.mem_filterMap] at h
    obtain ⟨v, hv, hvf⟩ := h
    split at hvf
    · next hz =>
      cases hvf
      exact ⟨v, hv, _, hstd, rfl, hz, rfl, rfl, rfl⟩
    · cases hvf

/-- What an IQR anomaly looks like: its confidence is `min (nd/2) 1` for a
nonnegative normalized distance, and its labels stay empty. -/
theorem iqr_mem_elim {k : ℚ} {m : Metric} {a : Anomaly}
    (h : a ∈ StatisticalDetector.iqrAnomalies k m) :
    ∃ v ∈ m.values, ∃ nd : ℚ,
      0 ≤ nd ∧ a.confidence = min (nd / 2) 1 ∧ a.labels = [] ∧
      a.timestamp = v.timestamp := by
  simp only [StatisticalDetector.iqrAnomalies] at h
  split at h
  · cases h
  · rw [List.mem_filterMap] at h
    obtain ⟨v, hv, hvf⟩ := h
    split at hvf
    · next hout =>
      cases hvf
      refine ⟨v, hv, _, ?_, rfl, rfl, rfl⟩
      set q1 := percentileQ (m.values.map (fun x => x.value)) 25 with hq1
      set q3 := percentileQ (m.values.map (fun x => x.value)) 75 with hq3
      by_cases hpos : 0 < q3 - q1
      · rw [if_pos hpos]
        apply div_nonneg _ hpos.le
        split
        · next hlt => linarith [hlt]
        · next hge =>
          rcases hout with hlo | hhi
          · exact absurd hlo hge
          · linarith [hhi]
      · rw [if_neg hpos]
    · cases hvf

/-- Every threshold anomaly has confidence 1 and empty labels. -/
theorem threshold_mem_elim {ths : List (String × Bounds)} {en : Bool} {m : Metric}
    {a : Anomaly} (h : a ∈ ThresholdDetector.detect ths en m) :
    a.confidence = 1 ∧ a.labels = [] := by
  unfold ThresholdDetector.detect at h
  split at h
  · cases h
  · split at h
    · cases h
    · split at h
      · cases h
      · rw [List.mem_filterMap] at h
        obtain ⟨v, _, hvf⟩ := h
        rw [Option.map_eq_some'] at hvf
        obtain ⟨hit, _, hrec⟩ := hvf
        cases hrec.symm
        exact ⟨rfl, rfl⟩

/-- Every trend-change anomaly has confidence of the form
`min (|d| / sq x) 1` and empty labels. -/
theorem trend_mem_elim {sq : ℚ → ℚ} {w : Nat} {m : Metric} {a : Anomaly}
    (h : a ∈ PatternDetector.trendAnomalies sq w m) :
    ∃ d x : ℚ, a.confidence = min (|d| / sq x) 1 ∧ a.labels = [] := by
  simp only [PatternDetector.trendAnomalies] at h
  rw [List.mem_filterMap] at h
  obtain ⟨i, _, hif⟩ := h
  split at hif
  · split at hif
    · cases hif
    · split at hif
      · cases hif
        exact ⟨_, _, rfl, rfl⟩
      · cases hif
  · cases hif

/-- Shape of a successful `PatternDetector.maDevAt`. -/
theorem maDevAt_shape {sq : ℚ → ℚ} {w : Nat} {m : Metric} {i : Nat} {a : Anomaly}
    (h : PatternDetector.maDevAt sq w m i = some a) :
    w ≤ i ∧
    sq (moving_var (m.values.map (fun v => v.value)) w i) ≠ 0 ∧
    (5/2 : ℚ) <
      |(m.values.map (fun v => v.value)).getD i 0 -
        moving_average (m.values.map (fun v => v.value)) w i| /
      sq (moving_var (m.values.map (fun v => v.value)) w i) ∧
    a = { metric_name := m.name
          anomaly_type := AnomalyType.pattern_anomaly
          severity :=
            (if 4 < |(m.values.map (fun v => v.value)).getD i 0 -
                moving_average (m.values.map (fun v => v.value)) w i| /
                sq (moving_var (m.values.map (fun v => v.value)) w i) then Severity.high
             else if 3 < |(m.values.map (fun v => v.value)).getD i 0 -
                moving_average (m.values.map (fun v => v.value)) w i| /
                sq (moving_var (m.values.map (fun v => v.value)) w i) then Severity.medium
             else Severity.low)
          timestamp := tsAt m i
          value := (m.values.map (fun v => v.value)).getD i 0
          detector_name := "PatternDetector"
          confidence := min ((|(m.values.map (fun v => v.value)).getD i 0 -
              moving_average (m.values.map (fun v => v.value)) w i| /
              sq (moving_var (m.values.map (fun v => v.value)) w i)) / 5) 1
          expected_value := some (moving_average (m.values.map (fun v => v.value)) w i) } := by
  simp only [PatternDetector.maDevAt] at h
  split at h
  · cases h
  · next hiw =>
    split at h
    · cases h
    · next hstd =>
      split at h
      · next hdev =>
        cases h
        exact ⟨Nat.le_of_not_lt hiw, hstd, hdev, rfl⟩
      · cases h

/-! ### Concrete evaluations used by witnesses and counterexamples -/

/-- Running `zscoreAnomalies` on `statMetricW` flags exactly timestamp 9. -/
theorem zW_eval :
    StatisticalDetector.zscoreAnomalies sqrtConstOne 4 statMetricW = [zAnomW] := by
  norm_num [StatisticalDetector.zscoreAnomalies, statMetricW, sqrtConstOne, meanQ,
    popVariance, List.filterMap, StatisticalDetector.calculate_zscore_severity,
    zAnomW, abs]

/-- Running `iqrAnomalies` on `statMetricW` flags exactly timestamp 9. -/
theorem qW_eval :
    StatisticalDetector.iqrAnomalies (3/2) statMetricW = [qAnomW] := by
  have h2 : Int.toNat 2 = 2 := rfl
  have h4 : Int.toNat 4 = 4 := rfl
  have h6 : Int.toNat 6 = 6 := rfl
  norm_num [StatisticalDetector.iqrAnomalies, statMetricW, percentileQ, sortQ, insertQ,
    List.filterMap, StatisticalDetector.calculate_iqr_severity, qAnomW, h2, h4, h6]

/-- Deduplication keeps the higher-confidence z-score candidate. -/
theorem statW_eval :
    StatisticalDetector.detect sqrtConstOne 4 (3/2) true statMetricW = [zAnomW] := by
  rw [show StatisticalDetector.detect sqrtConstOne 4 (3/2) true statMetricW =
      StatisticalDetector.deduplicate_anomalies
        (StatisticalDetector.zscoreAnomalies sqrtConstOne 4 statMetricW ++
         StatisticalDetector.iqrAnomalies (3/2) statMetricW) from by
    unfold StatisticalDetector.detect
    norm_num [statMetricW]]
  rw [zW_eval, qW_eval]
  norm_num [StatisticalDetector.deduplicate_anomalies, firstKeys, pyMaxConf, pickConf,
    List.filter, List.filterMap, zAnomW, qAnomW]

/-- The moving-average sub-test output on `maScenarioMetric`. -/
theorem maCex_eval :
    PatternDetector.maDeviationAnomalies sqrtQ01 2 maScenarioMetric = [maCexAnomaly] := by
  norm_num [PatternDetector.maDeviationAnomalies, PatternDetector.maDevAt,
    maScenarioMetric, sqrtQ01, moving_average, moving_var, meanQ, popVariance, sliceQ,
    List.filterMap, List.range_succ, maCexAnomaly, tsAt]

/-- The full pattern-detector output on `maWitnessMetric`. -/
theorem patternW_eval :
    PatternDetector.detect sqrtQ01 2 true maWitnessMetric = [maWitnessAnomaly] := by
  norm_num [PatternDetector.detect, PatternDetector.trendAnomalies,
    PatternDetector.maDeviationAnomalies, PatternDetector.maDevAt,
    maWitnessMetric, sqrtQ01, moving_average, moving_var, meanQ, popVariance, sliceQ,
    npGradient, convValid, signQ, diffQ, List.filterMap, List.range_succ,
    maWitnessAnomaly, tsAt]

/-- The spike-detector output on `spikeWitnessMetric`. -/
theorem spikeW_eval :
    SpikeDetector.detect (4/5) 50 true spikeWitnessMetric = [spikeWitnessAnomaly] := by
  norm_num [SpikeDetector.detect, SpikeDetector.pair, percentChange,
    SpikeDetector.calculate_severity, spikeWitnessMetric, spikeWitnessAnomaly,
    List.filterMap, List.zip, List.zipWith]

/-- The threshold-detector output on `thrWitnessMetric`. -/
theorem thrW_eval :
    ThresholdDetector.detect [("cpu_usage", thrWitnessBounds)] true thrWitnessMetric =
      [thrWitnessAnomaly] := by
  norm_num [ThresholdDetector.detect, ThresholdDetector.get_metric_thresholds,
    ThresholdDetector.check_thresholds, geHit, gtHit, ltHit, thrWitnessBounds,
    thrWitnessMetric, thrWitnessAnomaly, List.filterMap, List.find?]

/-! ### C1 -/

/-- C1: for a consecutive pair with `prev != 0`, `SpikeDetector` emits a
candidate anomaly iff `|(cur - prev)/prev * 100| >= min_change_percent`;
a `0 → nonzero` pair is treated as a +100% change and a `0 → 0` pair is
skipped; a positive percent change yields kind `spike`, a negative one
`drop`, and `expected_value` equals `prev`.  The final conjunct ties the
per-pair function to `SpikeDetector.detect`. -/
theorem spike_threshold_claim :
    (∀ (s c : ℚ) (name : String) (prev cur : MetricValue),
      (prev.value ≠ 0 →
        ((SpikeDetector.pair s c name prev cur).isSome ↔
          c ≤ |(cur.value - prev.value) / prev.value * 100|))
      ∧ (prev.value = 0 → cur.value ≠ 0 →
          percentChange prev.value cur.value = some 100)
      ∧ (prev.value = 0 → cur.value = 0 →
          SpikeDetector.pair s c name prev cur = none)
      ∧ (∀ a pc, SpikeDetector.pair s c name prev cur = some a →
          percentChange prev.value cur.value = some pc →
          a.expected_value = some prev.value
          ∧ (0 < pc → a.anomaly_type = AnomalyType.spike)
          ∧ (pc < 0 → a.anomaly_type = AnomalyType.drop)))
    ∧ (∀ (s c : ℚ) (m : Metric), 2 ≤ m.values.length →
        SpikeDetector.detect s c true m =
          (m.values.zip m.values.tail).filterMap
            (fun p => SpikeDetector.pair s c m.name p.1 p.2)) := by
  constructor
  · intro s c name prev cur
    refine ⟨?_, ?_, ?_, ?_⟩
    · intro hprev
      by_cases hle : c ≤ |(cur.value - prev.value) / prev.value * 100|
      · simp [SpikeDetector.pair, percentChange, hprev, hle]
      · simp [SpikeDetector.pair, percentChange, hprev, hle]
    · intro h0 hcur
      simp [percentChange, h0, hcur]
    · intro h0 hcur
      simp [SpikeDetector.pair, percentChange, h0, hcur]
    · intro a pc ha hpc
      obtain ⟨pc', hpc', hle, rfl⟩ := spike_pair_shape ha
      rw [hpc'] at hpc
      cases hpc
      refine ⟨rfl, ?_, ?_⟩
      · intro hpos
        simp [if_pos hpos]
      · intro hneg
        simp [if_neg (not_lt.mpr hneg.le)]
  · intro s c m hlen
    unfold SpikeDetector.detect
    rw [if_neg (by simp), if_neg (by omega)]

/-- Witness for C1 at the pair `(100, 300)` with `min_change_percent = 50`. -/
theorem spike_threshold_claim_witness :
    ((100 : ℚ) ≠ 0) ∧
    (SpikeDetector.pair 1 50 "cpu_usage" { timestamp := 0, value := 100 }
      { timestamp := 1, value := 300 }).isSome := by
  have h := ((spike_threshold_claim.1 1 50 "cpu_usage"
    { timestamp := 0, value := 100 } { timestamp := 1, value := 300 }).1
    (by norm_num)).mpr (by norm_num)
  exact ⟨by norm_num, h⟩

/-! ### C8 -/

/-- C8 counterexample: on `[100,100,100,100,300,100,100]` with
`min_change_percent = 50` the single emitted spike anomaly (4th-minute
sample, value 300, expected 100) has severity `critical`, not `high` as
claimed: the 200% change falls in the `>= 200` band. -/
theorem spike_scenario_counterexample :
    ((SpikeDetector.detect (8/10) 50 true spikeScenarioMetric).filter
        (fun a => a.anomaly_type = AnomalyType.spike)).map
        (fun a => (a.timestamp, a.value, a.expected_value, a.severity)) =
      [(4, 300, some 100, Severity.critical)]
    ∧ Severity.critical ≠ Severity.high := by
  constructor
  · have habs : |(200:ℚ)/3| = 200/3 := abs_of_pos (by norm_num)
    norm_num [SpikeDetector.detect, SpikeDetector.pair, percentChange,
      spikeScenarioMetric, SpikeDetector.calculate_severity, List.filter,
      List.filterMap, List.zip, List.zipWith, habs]
    rfl
  · decide

/-- C8 amended: the scenario emits exactly one spike anomaly, at the
4th-minute sample, with value 300, expected_value 100 and severity
`critical` (a 200% change hits the `>= 200` severity band). -/
theorem spike_scenario_amended :
    ((SpikeDetector.detect (8/10) 50 true spikeScenarioMetric).filter
        (fun a => a.anomaly_type = AnomalyType.spike)).map
        (fun a => (a.timestamp, a.value, a.expected_value, a.severity)) =
      [(4, 300, some 100, Severity.critical)] := by
  have habs : |(200:ℚ)/3| = 200/3 := abs_of_pos (by norm_num)
  norm_num [SpikeDetector.detect, SpikeDetector.pair, percentChange,
    spikeScenarioMetric, SpikeDetector.calculate_severity, List.filter,
    List.filterMap, List.zip, List.zipWith, habs]
  rfl

/-! ### C9 -/

/-- C9 counterexample: on a metric whose samples carry labels
`{"instance": "a"}`, the emitted spike anomaly has an empty labels map —
`_create_anomaly` never passes the sample's labels, so the dataclass
default `{}` survives. -/
theorem labels_copy_counterexample :
    (SpikeDetector.detect 1 50 true labeledMetric).map (fun a => a.labels) = [[]]
    ∧ (labeledMetric.values.getD 1 dMV).labels = [("instance", "a")]
    ∧ ([] : List (String × String)) ≠ [("instance", "a")] := by
  refine ⟨?_, by rfl, by simp⟩
  norm_num [SpikeDetector.detect, SpikeDetector.pair, percentChange, labeledMetric,
    List.filterMap, List.zip, List.zipWith, SpikeDetector.calculate_severity]

/-- C9 amended: every anomaly emitted by any of the four detectors carries
the *empty* labels map — the originating sample's label set is never
copied into the anomaly. -/
theorem labels_empty_amended :
    (∀ (s c : ℚ) (en : Bool) (m : Metric) (a : Anomaly),
        a ∈ SpikeDetector.detect s c en m → a.labels = [])
    ∧ (∀ (sq : ℚ → ℚ) (zt k : ℚ) (en : Bool) (m : Metric) (a : Anomaly),
        a ∈ StatisticalDetector.detect sq zt k en m → a.labels = [])
    ∧ (∀ (ths : List (String × Bounds)) (en : Bool) (m : Metric) (a : Anomaly),
        a ∈ ThresholdDetector.detect ths en m → a.labels = [])
    ∧ (∀ (sq : ℚ → ℚ) (w : Nat) (en : Bool) (m : Metric) (a : Anomaly),
        a ∈ PatternDetector.detect sq w en m → a.labels = []) := by
  refine ⟨?_, ?_, ?_, ?_⟩
  · intro s c en m a h
    obtain ⟨p, _, hp⟩ := spike_detect_mem h
    obtain ⟨pc, _, _, rfl⟩ := spike_pair_shape hp
    rfl
  · intro sq zt k en m a h
    unfold StatisticalDetector.detect at h
    split at h
    · cases h
    · split at h
      · cases h
      · rcases List.mem_append.mp (dedup_mem_sub h) with hz | hq
        · obtain ⟨v, _, z, _, _, _, _, hlab, _⟩ := zscore_mem_elim hz
          exact hlab
        · obtain ⟨v, _, nd, _, _, hlab, _⟩ := iqr_mem_elim hq
          exact hlab
  · intro ths en m a h
    exact (threshold_mem_elim h).2
  · intro sq w en m a h
    unfold PatternDetector.detect at h
    split at h
    · cases h
    · split at h
      · cases h
      · rcases List.mem_append.mp h with ht | hma
        · obtain ⟨d, x, _, hlab⟩ := trend_mem_elim ht
          exact hlab
        · rw [PatternDetector.maDeviationAnomalies, List.mem_filterMap] at hma
          obtain ⟨i, _, hi⟩ := hma
          obtain ⟨_, _, _, rfl⟩ := maDevAt_shape hi
          rfl

/-- Witness for C9's amended statement on concrete detector runs. -/
theorem labels_empty_amended_witness :
    spikeWitnessAnomaly.labels = [] ∧ zAnomW.labels = [] ∧
    thrWitnessAnomaly.labels = [] ∧ maWitnessAnomaly.labels = [] := by
  refine ⟨?_, ?_, ?_, ?_⟩
  · exact labels_empty_amended.1 (4/5) 50 true spikeWitnessMetric spikeWitnessAnomaly
      (by rw [spikeW_eval]; exact List.mem_singleton_self _)
  · exact labels_empty_amended.2.1 sqrtConstOne 4 (3/2) true statMetricW zAnomW
      (by rw [statW_eval]; exact List.mem_singleton_self _)
  · exact labels_empty_amended.2.2.1 [("cpu_usage", thrWitnessBounds)] true
      thrWitnessMetric thrWitnessAnomaly
      (by rw [thrW_eval]; exact List.mem_singleton_self _)
  · exact labels_empty_amended.2.2.2 sqrtQ01 2 true maWitnessMetric maWitnessAnomaly
      (by rw [patternW_eval]; exact List.mem_singleton_self _)

/-! ### C5 -/

/-- C5: the `Anomaly` constructor accepts exactly the confidences in
`[0, 1]` (rejecting all others), and every anomaly emitted by any of the
four detectors satisfies `0 ≤ confidence ≤ 1` (for the spike detector
under its configured damping factor `sensitivity ∈ [0,1]`, and for the
`sqrtQ`-parametric detectors under the square root's nonnegativity). -/
theorem confidence_bound_claim :
    (∀ a : Anomaly, ((∃ b, mkAnomaly a = Except.ok b) ↔
        (0 ≤ a.confidence ∧ a.confidence ≤ 1)))
    ∧ (∀ (s c : ℚ) (en : Bool) (m : Metric) (a : Anomaly), 0 ≤ s → s ≤ 1 →
        a ∈ SpikeDetector.detect s c en m →
        0 ≤ a.confidence ∧ a.confidence ≤ 1)
    ∧ (∀ (sq : ℚ → ℚ) (zt k : ℚ) (en : Bool) (m : Metric) (a : Anomaly),
        (∀ x, 0 ≤ sq x) → a ∈ StatisticalDetector.detect sq zt k en m →
        0 ≤ a.confidence ∧ a.confidence ≤ 1)
    ∧ (∀ (ths : List (String × Bounds)) (en : Bool) (m : Metric) (a : Anomaly),
        a ∈ ThresholdDetector.detect ths en m →
        0 ≤ a.confidence ∧ a.confidence ≤ 1)
    ∧ (∀ (sq : ℚ → ℚ) (w : Nat) (en : Bool) (m : Metric) (a : Anomaly),
        (∀ x, 0 ≤ sq x) → a ∈ PatternDetector.detect sq w en m →
        0 ≤ a.confidence ∧ a.confidence ≤ 1) := by
  refine ⟨?_, ?_, ?_, ?_, ?_⟩
  · intro a
    unfold mkAnomaly
    by_cases h : 0 ≤ a.confidence ∧ a.confidence ≤ 1
    · simp [h]
    · simp [h]
  · intro s c en m a hs0 hs1 h
    obtain ⟨p, _, hp⟩ := spike_detect_mem h
    obtain ⟨pc, _, _, rfl⟩ := spike_pair_shape hp
    dsimp only
    constructor
    · exact mul_nonneg (le_min (by positivity) zero_le_one) hs0
    · exact mul_le_one₀ (min_le_right _ _) hs0 hs1
  · intro sq zt k en m a hsq h
    unfold StatisticalDetector.detect at h
    split at h
    · cases h
    · split at h
      · cases h
      · rcases List.mem_append.mp (dedup_mem_sub h) with hz | hq
        · obtain ⟨v, _, z, hstd, hz_eq, _, hconf, _, _⟩ := zscore_mem_elim hz
          have hz0 : 0 ≤ z := hz_eq ▸ div_nonneg (abs_nonneg _) (hsq _)
          rw [hconf]
          exact ⟨le_min (div_nonneg hz0 (by norm_num)) zero_le_one,
            min_le_right _ _⟩
        · obtain ⟨v, _, nd, hnd0, hconf, _, _⟩ := iqr_mem_elim hq
          rw [hconf]
          exact ⟨le_min (div_nonneg hnd0 (by norm_num)) zero_le_one,
            min_le_right _ _⟩
  · intro ths en m a h
    rw [(threshold_mem_elim h).1]
    norm_num
  · intro sq w en m a hsq h
    unfold PatternDetector.detect at h
    split at h
    · cases h
    · split at h
      · cases h
      · rcases List.mem_append.mp h with ht | hma
        · obtain ⟨d, x, hconf, _⟩ := trend_mem_elim ht
          rw [hconf]
          exact ⟨le_min (div_nonneg (abs_nonneg _) (hsq x)) zero_le_one,
            min_le_right _ _⟩
        · rw [PatternDetector.maDeviationAnomalies, List.mem_filterMap] at hma
          obtain ⟨i, _, hi⟩ := hma
          obtain ⟨_, _, hdev, rfl⟩ := maDevAt_shape hi
          dsimp only
          constructor
          · refine le_min (div_nonneg (by linarith) (by norm_num)) zero_le_one
          · exact min_le_right _ _

/-- Witness for C5 on concrete runs of all four detectors. -/
theorem confidence_bound_claim_witness :
    (0 ≤ spikeWitnessAnomaly.confidence ∧ spikeWitnessAnomaly.confidence ≤ 1)
    ∧ (0 ≤ zAnomW.confidence ∧ zAnomW.confidence ≤ 1)
    ∧ (0 ≤ thrWitnessAnomaly.confidence ∧ thrWitnessAnomaly.confidence ≤ 1)
    ∧ (0 ≤ maWitnessAnomaly.confidence ∧ maWitnessAnomaly.confidence ≤ 1) := by
  refine ⟨?_, ?_, ?_, ?_⟩
  · exact confidence_bound_claim.2.1 (4/5) 50 true spikeWitnessMetric
      spikeWitnessAnomaly (by norm_num) (by norm_num)
      (by rw [spikeW_eval]; exact List.mem_singleton_self _)
  · exact confidence_bound_claim.2.2.1 sqrtConstOne 4 (3/2) true statMetricW zAnomW
      (fun x => by norm_num [sqrtConstOne])
      (by rw [statW_eval]; exact List.mem_singleton_self _)
  · exact confidence_bound_claim.2.2.2.1 [("cpu_usage", thrWitnessBounds)] true
      thrWitnessMetric thrWitnessAnomaly
      (by rw [thrW_eval]; exact List.mem_singleton_self _)
  · exact confidence_bound_claim.2.2.2.2 sqrtQ01 2 true maWitnessMetric
      maWitnessAnomaly
      (fun x => by unfold sqrtQ01; split <;> norm_num)
      (by rw [patternW_eval]; exact List.mem_singleton_self _)

/-! ### C2 -/

/-- C2: on a Series of at least 10 samples the StatisticalDetector output
is the deduplication of the z-score and IQR candidates: its timestamps are
pairwise distinct, a timestamp appears in the output iff some sub-test
flagged it, and a candidate that strictly dominates (by confidence) every
other candidate at its timestamp — in particular the higher-confidence one
when exactly two candidates, one per sub-test, share a timestamp — is the
unique anomaly emitted for that timestamp. -/
theorem statistical_dedup_claim :
    ∀ (sq : ℚ → ℚ) (zt k : ℚ) (m : Metric), 10 ≤ m.values.length →
      StatisticalDetector.detect sq zt k true m =
        StatisticalDetector.deduplicate_anomalies
          (StatisticalDetector.zscoreAnomalies sq zt m ++
            StatisticalDetector.iqrAnomalies k m)
      ∧ ((StatisticalDetector.detect sq zt k true m).map
          (fun a => a.timestamp)).Nodup
      ∧ (∀ t : Nat,
          (∃ cand ∈ StatisticalDetector.zscoreAnomalies sq zt m ++
              StatisticalDetector.iqrAnomalies k m, cand.timestamp = t) ↔
          (∃ a ∈ StatisticalDetector.detect sq zt k true m, a.timestamp = t))
      ∧ (∀ w ∈ StatisticalDetector.zscoreAnomalies sq zt m ++
            StatisticalDetector.iqrAnomalies k m,
          (∀ cand ∈ StatisticalDetector.zscoreAnomalies sq zt m ++
              StatisticalDetector.iqrAnomalies k m,
            cand.timestamp = w.timestamp → cand ≠ w →
            cand.confidence < w.confidence) →
          w ∈ StatisticalDetector.detect sq zt k true m ∧
          ∀ a ∈ StatisticalDetector.detect sq zt k true m,
            a.timestamp = w.timestamp → a = w) := by
  intro sq zt k m hlen
  have hdet : StatisticalDetector.detect sq zt k true m =
      StatisticalDetector.deduplicate_anomalies
        (StatisticalDetector.zscoreAnomalies sq zt m ++
          StatisticalDetector.iqrAnomalies k m) := by
    unfold StatisticalDetector.detect
    rw [if_neg (by simp), if_neg (by omega)]
  refine ⟨hdet, ?_, ?_, ?_⟩
  · rw [hdet, dedup_map_ts]
    exact firstKeys_nodup _
  · intro t
    constructor
    · rintro ⟨cand, hc, hct⟩
      rw [hdet]
      exact dedup_exists (List.mem_map.mpr ⟨cand, hc, hct⟩)
    · rintro ⟨a, ha, hat⟩
      rw [hdet] at ha
      exact ⟨a, dedup_mem_sub ha, hat⟩
  · intro w hw hstrict
    have h := dedup_strict hw hstrict
    rw [hdet]
    exact h

/-- Witness for C2: on `statMetricW` both sub-tests flag timestamp 9 and
the higher-confidence z-score candidate is the emitted anomaly. -/
theorem statistical_dedup_claim_witness :
    zAnomW ∈ StatisticalDetector.detect sqrtConstOne 4 (3/2) true statMetricW := by
  refine ((statistical_dedup_claim sqrtConstOne 4 (3/2) statMetricW
    (by norm_num [statMetricW])).2.2.2 zAnomW ?_ ?_).1
  · rw [zW_eval, qW_eval]
    exact List.mem_append_left _ (List.mem_singleton_self _)
  · intro cand hc hts hne
    rw [zW_eval, qW_eval] at hc
    rcases List.mem_append.mp hc with h1 | h2
    · exact absurd (List.mem_singleton.mp h1) hne
    · rw [List.mem_singleton.mp h2]
      norm_num [zAnomW, qAnomW]

/-! ### C6 -/

/-- C6: insufficient or degenerate data yields an empty result — fewer
than 2 samples for SpikeDetector, fewer than 10 for StatisticalDetector,
fewer than `2·window_size` for PatternDetector, a zero population standard
deviation for the z-score sub-test, and a zero interquartile range for the
IQR sub-test (in the total embedding no error is even expressible: the
detectors are total functions into anomaly lists). -/
theorem insufficient_data_claim :
    (∀ (s c : ℚ) (en : Bool) (m : Metric), m.values.length < 2 →
        SpikeDetector.detect s c en m = [])
    ∧ (∀ (sq : ℚ → ℚ) (zt k : ℚ) (en : Bool) (m : Metric), m.values.length < 10 →
        StatisticalDetector.detect sq zt k en m = [])
    ∧ (∀ (sq : ℚ → ℚ) (w : Nat) (en : Bool) (m : Metric), m.values.length < w * 2 →
        PatternDetector.detect sq w en m = [])
    ∧ (∀ (sq : ℚ → ℚ) (zt : ℚ) (m : Metric),
        sq (popVariance (m.values.map (fun v => v.value))) = 0 →
        StatisticalDetector.zscoreAnomalies sq zt m = [])
    ∧ (∀ (k : ℚ) (m : Metric),
        percentileQ (m.values.map (fun v => v.value)) 75 -
          percentileQ (m.values.map (fun v => v.value)) 25 = 0 →
        StatisticalDetector.iqrAnomalies k m = []) := by
  refine ⟨?_, ?_, ?_, ?_, ?_⟩
  · intro s c en m h
    simp [SpikeDetector.detect, h]
  · intro sq zt k en m h
    simp [StatisticalDetector.detect, h]
  · intro sq w en m h
    simp [PatternDetector.detect, h]
  · intro sq zt m h
    simp [StatisticalDetector.zscoreAnomalies, h]
  · intro k m h
    simp [StatisticalDetector.iqrAnomalies, h]

/-- Witness for C6 on concrete degenerate inputs: a 1-sample Series for
the spike (and window-2 pattern) guards, a 5-sample Series for the
statistical guard, and a constant Series for the zero-std / zero-IQR
guards. -/
theorem insufficient_data_claim_witness :
    SpikeDetector.detect 1 50 true thrWitnessMetric = []
    ∧ StatisticalDetector.detect sqrtConstOne 3 (3/2) true maWitnessMetric = []
    ∧ PatternDetector.detect sqrtQ01 1 true thrWitnessMetric = []
    ∧ StatisticalDetector.zscoreAnomalies sqrtQ01 3 thrWitnessMetric = []
    ∧ StatisticalDetector.iqrAnomalies (3/2) thrWitnessMetric = [] := by
  refine ⟨?_, ?_, ?_, ?_, ?_⟩
  · exact insufficient_data_claim.1 1 50 true thrWitnessMetric
      (by norm_num [thrWitnessMetric])
  · exact insufficient_data_claim.2.1 sqrtConstOne 3 (3/2) true maWitnessMetric
      (by norm_num [maWitnessMetric])
  · exact insufficient_data_claim.2.2.1 sqrtQ01 1 true thrWitnessMetric
      (by norm_num [thrWitnessMetric])
  · exact insufficient_data_claim.2.2.2.1 sqrtQ01 3 thrWitnessMetric
      (by norm_num [sqrtQ01, popVariance, meanQ, thrWitnessMetric])
  · refine insufficient_data_claim.2.2.2.2 (3/2) thrWitnessMetric ?_
    have h0 : Int.toNat 0 = 0 := rfl
    norm_num [percentileQ, sortQ, insertQ, thrWitnessMetric, h0]

/-! ### C7 -/

/-- C7 counterexample: on `[0,2,0,2,5]` with `window_size = 2` the index-4
deviation is exactly 4 σ (trailing window `[0,2]`: mean 1, std 1), yet the
emitted severity is `medium`, not `high` — the code's band test is the
strict `deviation > 4.0`, not the claimed `>= 4.0`.  (`sqrtQ01` agrees
with the real square root on both variances that occur, 0 and 1.) -/
theorem ma_severity_counterexample :
    (PatternDetector.maDeviationAnomalies sqrtQ01 2 maScenarioMetric).map
        (fun a => (a.timestamp, a.value, a.severity)) =
      [(4, 5, Severity.medium)]
    ∧ |(maScenarioMetric.values.map (fun v => v.value)).getD 4 0 -
        moving_average (maScenarioMetric.values.map (fun v => v.value)) 2 4| /
      sqrtQ01 (moving_var (maScenarioMetric.values.map (fun v => v.value)) 2 4) = 4
    ∧ Severity.medium ≠ Severity.high
    ∧ sqrtQ01 1 = 1 ∧ sqrtQ01 0 = 0 := by
  refine ⟨?_, ?_, by decide, by norm_num [sqrtQ01], by norm_num [sqrtQ01]⟩
  · rw [maCex_eval]
    rfl
  · norm_num [maScenarioMetric, moving_average, moving_var, meanQ, popVariance,
      sliceQ, sqrtQ01]

/-- C7 amended: in the moving-average deviation test, for each index
`i ≥ window_size` with nonzero trailing moving standard deviation an
anomaly is flagged exactly when the deviation exceeds 2.5 σ (indices with
zero moving std are skipped); severity is `high` when the deviation is
*strictly above* 4.0 σ, `medium` when strictly above 3.0 σ (and at most
4.0), else `low`; confidence is `min (deviation/5) 1`. -/
theorem ma_deviation_amended :
    ∀ (sq : ℚ → ℚ) (w : Nat) (m : Metric) (i : Nat) (dev : ℚ),
      w ≤ i →
      dev = |(m.values.map (fun v => v.value)).getD i 0 -
              moving_average (m.values.map (fun v => v.value)) w i| /
            sq (moving_var (m.values.map (fun v => v.value)) w i) →
      PatternDetector.maDeviationAnomalies sq w m =
        (List.range m.values.length).filterMap (PatternDetector.maDevAt sq w m)
      ∧ (sq (moving_var (m.values.map (fun v => v.value)) w i) = 0 →
          PatternDetector.maDevAt sq w m i = none)
      ∧ (sq (moving_var (m.values.map (fun v => v.value)) w i) ≠ 0 →
          ((PatternDetector.maDevAt sq w m i).isSome ↔ 5/2 < dev))
      ∧ (∀ a, PatternDetector.maDevAt sq w m i = some a →
          a.confidence = min (dev / 5) 1
          ∧ (a.severity = Severity.high ↔ 4 < dev)
          ∧ (a.severity = Severity.medium ↔ 3 < dev ∧ dev ≤ 4)
          ∧ (a.severity = Severity.low ↔ dev ≤ 3)) := by
  intro sq w m i dev hwi hdev
  refine ⟨rfl, ?_, ?_, ?_⟩
  · intro h0
    cases hcase : PatternDetector.maDevAt sq w m i with
    | none => rfl
    | some a =>
      obtain ⟨_, hstd, _, _⟩ := maDevAt_shape hcase
      exact absurd h0 hstd
  · intro hstd
    constructor
    · intro hsome
      obtain ⟨a, ha⟩ := Option.isSome_iff_exists.mp hsome
      obtain ⟨_, _, hd, _⟩ := maDevAt_shape ha
      rw [hdev]
      exact hd
    · intro h
      have h' := hdev ▸ h
      simp [PatternDetector.maDevAt, Nat.not_lt.mpr hwi, hstd]
      simpa using h'
  · intro a ha
    obtain ⟨_, hstd, hd, rfl⟩ := maDevAt_shape ha
    rw [← hdev] at hd ⊢
    refine ⟨rfl, ?_, ?_, ?_⟩
    · by_cases h4 : 4 < dev
      · simp [h4]
      · by_cases h3 : 3 < dev
        · simp [h4, h3]
        · simp [h4, h3]
    · by_cases h4 : 4 < dev
      · simp [h4]
      · by_cases h3 : 3 < dev
        · simp [h4, h3, not_lt.mp h4]
        · simp [h4, h3]
    · by_cases h4 : 4 < dev
      · simp [h4]
        linarith
      · by_cases h3 : 3 < dev
        · simp [h4, h3]
        · simp [h4, h3, not_lt.mp h3]

/-- Witness for C7's amended statement: on `[0,2,0,2,6]` the index-4
deviation is 5 σ, so an anomaly is flagged there. -/
theorem ma_deviation_amended_witness :
    (PatternDetector.maDevAt sqrtQ01 2 maWitnessMetric 4).isSome = true := by
  have h := ma_deviation_amended sqrtQ01 2 maWitnessMetric 4 5 (by norm_num)
    (by norm_num [maWitnessMetric, moving_average, moving_var, meanQ, popVariance,
      sliceQ, sqrtQ01])
  exact (h.2.2.1 (by norm_num [maWitnessMetric, moving_var, popVariance, meanQ,
    sliceQ, sqrtQ01])).mpr (by norm_num)

/-! ### C3 -/

/-- C3 counterexample: with the single bound `{max: 70}` and the sample
value 70 (which satisfies `value >= bound`), the code emits nothing — the
`max` check is the strict `value > thresholds['max']`, not the claimed
`value >= bound`. -/
theorem threshold_ge_counterexample :
    ThresholdDetector.check_thresholds { max := some 70 } 70 = none
    ∧ (70 : ℚ) ≤ 70 := by
  refine ⟨?_, le_refl _⟩
  norm_num [ThresholdDetector.check_thresholds, geHit, gtHit, ltHit]

/-- C3 amended: `_check_thresholds` returns the *first* hit in the fixed
order critical → warning → max → min → max_rate → min_rate (so at most one
anomaly per sample, and critical beats warning on `{warning:70,
critical:90}` at 95); `critical`/`warning` trigger on `value >= bound`,
`max`/`max_rate` on the strict `value > bound`, and `min`/`min_rate` on
`value < bound`, with severities critical/high/high/medium/high/medium
respectively. -/
theorem threshold_order_amended :
    (∀ (b : Bounds) (v : ℚ),
      ThresholdDetector.check_thresholds b v =
        ([ (geHit b.critical v).map
             (fun t => (⟨ThresholdKind.criticalK, Severity.critical, t⟩ : ThresholdHit)),
           (geHit b.warning v).map
             (fun t => ⟨ThresholdKind.warningK, Severity.high, t⟩),
           (gtHit b.max v).map
             (fun t => ⟨ThresholdKind.maxK, Severity.high, t⟩),
           (ltHit b.min v).map
             (fun t => ⟨ThresholdKind.minK, Severity.medium, t⟩),
           (gtHit b.max_rate v).map
             (fun t => ⟨ThresholdKind.maxRateK, Severity.high, t⟩),
           (ltHit b.min_rate v).map
             (fun t => ⟨ThresholdKind.minRateK, Severity.medium, t⟩) ].filterMap id).head?)
    ∧ (∀ (b : Bounds) (v t : ℚ), b.critical = some t → t ≤ v →
        ThresholdDetector.check_thresholds b v =
          some ⟨ThresholdKind.criticalK, Severity.critical, t⟩)
    ∧ (∀ (ob : Option ℚ) (v t : ℚ),
        (geHit ob v = some t ↔ ob = some t ∧ t ≤ v)
        ∧ (gtHit ob v = some t ↔ ob = some t ∧ t < v)
        ∧ (ltHit ob v = some t ↔ ob = some t ∧ v < t))
    ∧ ThresholdDetector.check_thresholds { warning := some 70, critical := some 90 } 95 =
        some ⟨ThresholdKind.criticalK, Severity.critical, 90⟩
    ∧ (∀ (ths : List (String × Bounds)) (en : Bool) (m : Metric),
        (ThresholdDetector.detect ths en m).length ≤ m.values.length) := by
  refine ⟨?_, ?_, ?_, ?_, ?_⟩
  · intro b v
    unfold ThresholdDetector.check_thresholds
    cases hc : geHit b.critical v with
    | some t => simp [hc]
    | none =>
    cases hw : geHit b.warning v with
    | some t => simp [hc, hw]
    | none =>
    cases hm : gtHit b.max v with
    | some t => simp [hc, hw, hm]
    | none =>
    cases hn : ltHit b.min v with
    | some t => simp [hc, hw, hm, hn]
    | none =>
    cases hmr : gtHit b.max_rate v with
    | some t => simp [hc, hw, hm, hn, hmr]
    | none =>
    cases hnr : ltHit b.min_rate v with
    | some t => simp [hc, hw, hm, hn, hmr, hnr]
    | none => simp [hc, hw, hm, hn, hmr, hnr]
  · intro b v t hcrit hle
    unfold ThresholdDetector.check_thresholds
    rw [show geHit b.critical v = some t from by simp [geHit, hcrit, hle]]
  · intro ob v t
    refine ⟨?_, ?_, ?_⟩
    · cases ob with
      | none => simp [geHit]
      | some u =>
        show (if u ≤ v then some u else none) = some t ↔ some u = some t ∧ t ≤ v
        by_cases h : u ≤ v
        · rw [if_pos h]
          constructor
          · intro he
            have hut := Option.some.inj he
            subst hut
            exact ⟨rfl, h⟩
          · rintro ⟨he, -⟩
            exact he
        · rw [if_neg h]
          constructor
          · intro he
            cases he
          · rintro ⟨he, hle⟩
            have hut := Option.some.inj he
            subst hut
            exact absurd hle h
    · cases ob with
      | none => simp [gtHit]
      | some u =>
        show (if u < v then some u else none) = some t ↔ some u = some t ∧ t < v
        by_cases h : u < v
        · rw [if_pos h]
          constructor
          · intro he
            have hut := Option.some.inj he
            subst hut
            exact ⟨rfl, h⟩
          · rintro ⟨he, -⟩
            exact he
        · rw [if_neg h]
          constructor
          · intro he
            cases he
          · rintro ⟨he, hle⟩
            have hut := Option.some.inj he
            subst hut
            exact absurd hle h
    · cases ob with
      | none => simp [ltHit]
      | some u =>
        show (if v < u then some u else none) = some t ↔ some u = some t ∧ v < t
        by_cases h : v < u
        · rw [if_pos h]
          constructor
          · intro he
            have hut := Option.some.inj he
            subst hut
            exact ⟨rfl, h⟩
          · rintro ⟨he, -⟩
            exact he
        · rw [if_neg h]
          constructor
          · intro he
            cases he
          · rintro ⟨he, hle⟩
            have hut := Option.some.inj he
            subst hut
            exact absurd hle h
  · norm_num [ThresholdDetector.check_thresholds, geHit, gtHit, ltHit]
  · intro ths en m
    unfold ThresholdDetector.detect
    split
    · simp
    · split
      · simp
      · split
        · simp
        · calc (m.values.filterMap _).length ≤ m.values.length :=
            List.length_filterMap_le _ _

/-- Witness for C3's amended statement: critical fires first on value 95
with bounds `{warning: 70, critical: 90}`. -/
theorem threshold_order_amended_witness :
    ThresholdDetector.check_thresholds thrWitnessBounds 95 =
      some ⟨ThresholdKind.criticalK, Severity.critical, 90⟩ :=
  threshold_order_amended.2.1 thrWitnessBounds 95 90 (by rfl) (by norm_num)

/-! ### C4 -/

/-- A `filterMap` whose function always succeeds is a `map`. -/
theorem filterMap_all_some {α β : Type} (f : α → Option β) (g : α → β)
    (h : ∀ a, f a = some (g a)) : ∀ l : List α, l.filterMap f = l.map g := by
  intro l
  induction l with
  | nil => rfl
  | cons a as ih => simp [List.filterMap_cons, h a, ih]

/-- C4: when the enrichment step fails the batch survives un-modified, at
both failure granularities the code has — an exception escaping
`_enrich_with_llm` is caught by `collect_and_analyze`'s `try/except`
(which keeps `all_anomalies` as-is), and a per-anomaly client error inside
`validate_anomalies` re-appends the un-enriched anomaly (`keep_all=True`).
So a cycle with N raw anomalies still outputs those same N anomalies. -/
theorem enrichment_fallback_claim :
    (∀ (enrich : List Anomaly → Except String (List Anomaly)) (batch : List Anomaly),
        (∀ bs, ∃ msg, enrich bs = Except.error msg) →
        apply_enrichment true enrich batch = batch)
    ∧ (∀ (client : Anomaly → Except String LLMInfo) (batch : List Anomaly),
        (∀ a, ∃ msg, client a = Except.error msg) →
        enrich_with_llm client batch = batch) := by
  constructor
  · intro enrich batch h
    unfold apply_enrichment
    by_cases hb : batch = []
    · subst hb
      simp
    · obtain ⟨msg, he⟩ := h batch
      rw [if_pos ⟨rfl, hb⟩, he]
  · intro client batch h
    have hval : LLMValidator.validate_anomalies client true true batch =
        batch.map (fun a => (a, (none : Option LLMInfo))) := by
      unfold LLMValidator.validate_anomalies
      rw [if_neg (by simp)]
      refine filterMap_all_some _ _ ?_ batch
      intro a
      obtain ⟨msg, he⟩ := h a
      simp [he]
    unfold enrich_with_llm
    rw [hval, List.map_map]
    show List.map (fun a => a) batch = batch
    simp

/-- Witness for C4 with an always-erroring enricher on a 1-anomaly batch. -/
theorem enrichment_fallback_claim_witness :
    apply_enrichment true (fun _ => Except.error "llm down") [spikeWitnessAnomaly] =
      [spikeWitnessAnomaly]
    ∧ enrich_with_llm (fun _ => Except.error "llm down") [spikeWitnessAnomaly] =
      [spikeWitnessAnomaly] := by
  constructor
  · exact enrichment_fallback_claim.1 _ _ (fun bs => ⟨"llm down", rfl⟩)
  · exact enrichment_fallback_claim.2 _ _ (fun a => ⟨"llm down", rfl⟩)

/-! ### C10 -/

/-- A lone `'*'` matches any text. -/
theorem globFull_star_all : ∀ t : List Char, globFull ['*'] t = true := by
  intro t
  induction t with
  | nil => simp [globFull]
  | cons c ts ih => simp [globFull, ih]

/-- A literal block followed by `'*'` matches exactly the texts extending
the block. -/
theorem globFull_lit_star :
    ∀ (l : List Char), '*' ∉ l → ∀ t,
      (globFull (l ++ ['*']) t = true ↔ ∃ t2, t = l ++ t2) := by
  intro l
  induction l with
  | nil =>
    intro _ t
    simpa using globFull_star_all t
  | cons c l' ih =>
    intro hni t
    have hc : ¬(c = '*') := fun h' => hni (h' ▸ List.mem_cons_self _ _)
    have hl' : '*' ∉ l' := fun h' => hni (List.mem_cons_of_mem _ h')
    cases t with
    | nil => simp [globFull, hc]
    | cons d ts =>
      simp only [List.cons_append, globFull, if_neg hc, Bool.and_eq_true,
        decide_eq_true_eq, List.cons.injEq]
      rw [ih hl' ts]
      constructor
      · rintro ⟨rfl, t2, rfl⟩
        exact ⟨t2, rfl, rfl⟩
      · rintro ⟨t2, rfl, rfl⟩
        exact ⟨rfl, t2, rfl⟩

/-- If the pattern starts with a literal block before its first `'*'`, any
matching text starts with that block. -/
theorem globFull_lit_leading :
    ∀ (l : List Char), '*' ∉ l → ∀ (rest t : List Char),
      globFull (l ++ '*' :: rest) t = true → ∃ t2, t = l ++ t2 := by
  intro l
  induction l with
  | nil =>
    intro _ rest t _
    exact ⟨t, rfl⟩
  | cons c l' ih =>
    intro hni rest t hglob
    have hc : ¬(c = '*') := fun h' => hni (h' ▸ List.mem_cons_self _ _)
    have hl' : '*' ∉ l' := fun h' => hni (List.mem_cons_of_mem _ h')
    cases t with
    | nil => simp [globFull, hc] at hglob
    | cons d ts =>
      simp only [List.cons_append, globFull, if_neg hc, Bool.and_eq_true,
        decide_eq_true_eq] at hglob
      obtain ⟨rfl, hg⟩ := hglob
      obtain ⟨t2, rfl⟩ := ih hl' rest ts hg
      exact ⟨t2, rfl⟩

/-- The `re.match` semantics: the anchored regex must match some prefix. -/
theorem reMatch_iff (p t : List Char) :
    reMatch p t = true ↔ ∃ t1 t2, t = t1 ++ t2 ∧ globFull p t1 = true := by
  unfold reMatch
  rw [List.any_eq_true]
  constructor
  · rintro ⟨pre, hmem, hg⟩
    obtain ⟨suf, hsuf⟩ := (List.mem_inits _ _).mp hmem
    exact ⟨pre, suf, hsuf.symm, hg⟩
  · rintro ⟨t1, t2, rfl, hg⟩
    exact ⟨t1, (List.mem_inits _ _).mpr ⟨t2, rfl⟩, hg⟩

/-- C10: wildcard bound resolution.  A pattern's `'*'`-expansion is
matched anchored at the start and unanchored at the end — `reMatch`
succeeds exactly when the anchored regex consumes a prefix of the name;
`cpu*` matches precisely the names beginning with `cpu`; a pattern whose
leading literal block is not a prefix of the name never matches; and
resolution tries the exact entry before any `'*'` pattern. -/
theorem wildcard_resolution_claim :
    (∀ p t : List Char,
        reMatch p t = true ↔ ∃ t1 t2, t = t1 ++ t2 ∧ globFull p t1 = true)
    ∧ (∀ s : List Char,
        reMatch ['c', 'p', 'u', '*'] s = true ↔
          ∃ rest, s = 'c' :: 'p' :: 'u' :: rest)
    ∧ (∀ (l rest t : List Char), '*' ∉ l →
        reMatch (l ++ '*' :: rest) t = true → ∃ t2, t = l ++ t2)
    ∧ (∀ (ths : List (String × Bounds)) (name : String) (kv : String × Bounds),
        ths.find? (fun kv => kv.1 = name) = some kv →
        ThresholdDetector.get_metric_thresholds ths name = some kv.2)
    ∧ (∀ (ths : List (String × Bounds)) (name : String),
        ths.find? (fun kv => kv.1 = name) = none →
        ThresholdDetector.get_metric_thresholds ths name =
          (ths.find? (fun kv =>
            kv.1.toList.contains '*' && reMatch kv.1.toList name.toList)).map
            (fun kv => kv.2)) := by
  refine ⟨reMatch_iff, ?_, ?_, ?_, ?_⟩
  · intro s
    rw [reMatch_iff]
    constructor
    · rintro ⟨t1, t2, rfl, hg⟩
      have : globFull (['c', 'p', 'u'] ++ ['*']) t1 = true := hg
      obtain ⟨t2', rfl⟩ := (globFull_lit_star ['c', 'p', 'u'] (by decide) t1).mp this
      exact ⟨t2' ++ t2, by simp⟩
    · rintro ⟨rest, rfl⟩
      refine ⟨'c' :: 'p' :: 'u' :: rest, [], by simp, ?_⟩
      exact (globFull_lit_star ['c', 'p', 'u'] (by decide) _).mpr ⟨rest, rfl⟩
  · intro l rest t hni h
    rw [reMatch_iff] at h
    obtain ⟨t1, t2, rfl, hg⟩ := h
    obtain ⟨t2', rfl⟩ := globFull_lit_leading l hni rest t1 hg
    exact ⟨t2' ++ t2, by simp⟩
  · intro ths name kv hfind
    unfold ThresholdDetector.get_metric_thresholds
    rw [hfind]
  · intro ths name hfind
    unfold ThresholdDetector.get_metric_thresholds
    rw [hfind]
    cases h : ths.find? (fun kv =>
        kv.1.toList.contains '*' && reMatch kv.1.toList name.toList) with
    | none => rfl
    | some kv => rfl

/-- Witness for C10: exact resolution on a one-entry configuration. -/
theorem wildcard_resolution_claim_witness :
    ThresholdDetector.get_metric_thresholds [("cpu_usage", thrWitnessBounds)]
      "cpu_usage" = some thrWitnessBounds := by
  exact wildcard_resolution_claim.2.2.2.1 [("cpu_usage", thrWitnessBounds)]
    "cpu_usage" ("cpu_usage", thrWitnessBounds) (by simp [List.find?])

end MetricsAgent
